import Mathlib

/-!
Verification development for scripts/iptv_checker.py.

The script probes candidate IPTV endpoints (strings of the form host:port)
for a fixed list of (province, isp, multicast) targets.  Per target it

  1. truncates the candidate list to the first MAX_IPS_PER_TARGET entries,
  2. pings each candidate's host part concurrently (batch_ping_check,
     built on check_ip_ping) and keeps the reachable candidates,
  3. runs a timed streaming download against each survivor
     (test_stream_speed_one_minute), keeping the non-None results,
  4. sorts the results by total_bytes descending (a stable sort) and
     main keeps the first two entries for the output mapping.

Network behaviour is modelled by oracle functions: a ping oracle mapping a
host string to the observable outcome of the ping subprocess, and a stream
oracle mapping a request URL to the observable outcome of the timed
download.  The thread pools collect results in completion order, which is
nondeterministic; that order is modelled by an explicit schedule parameter,
a function on lists, constrained (where a claim needs it) to produce a
permutation of its input.
-/

/-- Configuration constant REQUEST_TIMEOUT from the script (seconds). -/
def REQUEST_TIMEOUT : Nat := 10

/-- Configuration constant PING_TIMEOUT from the script (seconds). -/
def PING_TIMEOUT : Nat := 2

/-- Configuration constant SPEED_TEST_DURATION from the script (seconds). -/
def SPEED_TEST_DURATION : Nat := 20

/-- Configuration constant MAX_WORKERS from the script: worker bound of the
throughput-stage thread pool. -/
def MAX_WORKERS : Nat := 10

/-- Worker bound of the ping-stage thread pool (literal 20 in
batch_ping_check). -/
def PING_STAGE_WORKERS : Nat := 20

/-- Configuration constant MAX_IPS_PER_TARGET from the script. -/
def MAX_IPS_PER_TARGET : Nat := 500

/-- The TARGETS table of the script: (province, isp, multicast address). -/
def TARGETS : List (String × String × String) :=
  [("北京", "移动", "228.1.1.128:8001"),
   ("北京", "联通", "239.3.1.238:8001"),
   ("北京", "电信", "225.1.8.36:8002"),
   ("湖南", "电信", "239.76.253.100:9000"),
   ("上海", "电信", "233.18.204.51:5140"),
   ("广东", "电信", "239.77.0.112:5146"),
   ("海南", "电信", "239.253.64.14:5140"),
   ("四川", "电信", "239.94.0.60:5140"),
   ("重庆", "电信", "235.254.197.237:7980"),
   ("河北", "联通", "239.253.92.154:6011"),
   ("河北", "电信", "239.254.200.174:6000")]

/-- Observable outcome of one ping subprocess run against a host:
whether an exception (subprocess.TimeoutExpired or any other) was raised,
and otherwise the process return code. -/
structure PingTrace where
  raised : Bool
  returncode : Int
  deriving DecidableEq, Repr

/-- Observable outcome of one timed streaming download against a URL:
whether an exception escaped to the outer handler of
test_stream_speed_one_minute, the HTTP status code, the total bytes
accumulated by the chunk loop, and the elapsed wall-clock duration in
seconds (actual_duration). -/
structure StreamTrace where
  raised : Bool
  statusCode : Nat
  totalBytes : Nat
  duration : ℚ
  deriving DecidableEq

/-- The characters of a string up to (excluding) the first colon. -/
def takeUntilColon : List Char → List Char
  | [] => []
  | c :: cs => if c = ':' then [] else c :: takeUntilColon cs

/-- Models ip.split(':')[0] in check_ip_ping: the part of the candidate
string before the first colon (the whole string when there is none). -/
def hostPart (ip : String) : String := String.mk (takeUntilColon ip.data)

/-- check_ip_ping: extract the host part of the candidate and ping it.
Returns true iff the subprocess ran without exception and exited with
return code 0; the catch-all except clause turns every exception into
False, which the totality of this function models. -/
def check_ip_ping (pnet : String → PingTrace) (ip : String) : Bool :=
  let t := pnet (hostPart ip)
  if t.raised then false else t.returncode == 0

/-- batch_ping_check: submits check_ip_ping for every candidate of the
list to a thread pool and appends each candidate whose future returned
True, in completion order.  The completion order is the schedule sched
applied to the submitted list. -/
def batch_ping_check (pnet : String → PingTrace)
    (sched : List String → List String) (ip_list : List String) :
    List String :=
  (sched ip_list).filter (check_ip_ping pnet)

/-- The request URL built by test_stream_speed_one_minute. -/
def test_url (ip_port multicast_addr : String) : String :=
  "http://" ++ ip_port ++ "/rtp/" ++ multicast_addr

/-- The dict returned by a successful test_stream_speed_one_minute run.
The script rounds avg_speed_kbps and duration_sec with round(x, 2) on
floats; the model keeps the exact rational values. -/
structure SpeedResult where
  ip_port : String
  total_bytes : Nat
  avg_speed_kbps : ℚ
  duration_sec : ℚ
  test_url : String
  deriving DecidableEq

/-- test_stream_speed_one_minute: returns None when an exception escapes
to the outer handler, when the HTTP status is an error (>= 400), or when
the measured duration is below 10 seconds; otherwise returns the result
dict.  Note that the byte count does not influence success. -/
def test_stream_speed_one_minute (snet : String → StreamTrace)
    (ip_port multicast_addr : String) : Option SpeedResult :=
  let url := test_url ip_port multicast_addr
  let t := snet url
  if t.raised then none
  else if 400 ≤ t.statusCode then none
  else if t.duration < 10 then none
  else some
    { ip_port := ip_port
      total_bytes := t.totalBytes
      avg_speed_kbps := (t.totalBytes : ℚ) / 1024 / t.duration
      duration_sec := t.duration
      test_url := url }

/-- One step of the stable descending insertion sort on total_bytes:
x is placed before the first element whose key is not larger, so among
equal keys earlier-collected elements stay first.  This is the order
produced by speed_results.sort(key=lambda x: x[total_bytes],
reverse=True), Python list.sort being stable. -/
def insertDesc (x : SpeedResult) : List SpeedResult → List SpeedResult
  | [] => [x]
  | y :: ys =>
    if x.total_bytes < y.total_bytes then y :: insertDesc x ys
    else x :: y :: ys

/-- Stable sort by total_bytes descending, modelling line 273 of the
script. -/
def sortDesc : List SpeedResult → List SpeedResult
  | [] => []
  | x :: xs => insertDesc x (sortDesc xs)

/-- complete_speed_test_workflow: empty input short-circuits; the list is
truncated to MAX_IPS_PER_TARGET; the ping stage filters it; zero ping
survivors short-circuit; otherwise the throughput stage probes every
survivor (in completion order sched₂) and the successful results are
sorted by total_bytes descending. -/
def complete_speed_test_workflow (pnet : String → PingTrace)
    (snet : String → StreamTrace)
    (sched₁ sched₂ : List String → List String)
    (ip_list : List String) (multicast_addr : String) : List SpeedResult :=
  if ip_list.isEmpty then []
  else
    let test_ips := ip_list.take MAX_IPS_PER_TARGET
    let reachable_ips := batch_ping_check pnet sched₁ test_ips
    if reachable_ips.isEmpty then []
    else
      sortDesc ((sched₂ reachable_ips).filterMap
        (fun ip => test_stream_speed_one_minute snet ip multicast_addr))

/-- The candidates submitted to the ping stage of
complete_speed_test_workflow: the input truncated to
MAX_IPS_PER_TARGET (empty input short-circuits before the stage). -/
def pingStageIps (ip_list : List String) : List String :=
  if ip_list.isEmpty then [] else ip_list.take MAX_IPS_PER_TARGET

/-- The candidates for which complete_speed_test_workflow invokes
test_stream_speed_one_minute, in submission order as seen by the
collection loop (sched₂ of the ping survivors); empty when either
short-circuit of the workflow fires. -/
def speedStageIps (pnet : String → PingTrace)
    (sched₁ sched₂ : List String → List String)
    (ip_list : List String) : List String :=
  if ip_list.isEmpty then []
  else
    let reachable_ips :=
      batch_ping_check pnet sched₁ (ip_list.take MAX_IPS_PER_TARGET)
    if reachable_ips.isEmpty then [] else sched₂ reachable_ips

/-- A schedule models the completion order of a thread pool: it may
reorder the submitted tasks but yields each exactly once. -/
def Sched (f : List String → List String) : Prop :=
  ∀ l : List String, (f l).Perm l

/-- next((addr for p, i, addr in TARGETS if p == province and i == isp),
None) in main. -/
def findMulticast (province isp : String) : Option String :=
  (TARGETS.find? (fun t => t.1 == province && t.2.1 == isp)).map
    (fun t => t.2.2)

/-- One entry of the per-target list main stores in final_results. -/
structure FinalEntry where
  ip : String
  multicast : String
  total_bytes : Nat
  avg_speed_kbps : ℚ
  duration_sec : ℚ
  deriving DecidableEq

/-- The dict main builds for one retained speed result. -/
def toFinalEntry (multicast : String) (r : SpeedResult) : FinalEntry :=
  { ip := r.ip_port
    multicast := multicast
    total_bytes := r.total_bytes
    avg_speed_kbps := r.avg_speed_kbps
    duration_sec := r.duration_sec }

/-- The per-target loop of main over ip_collections.items() (an
association list of ((province, isp), candidate list)): targets without
a multicast address or with an empty candidate list are skipped; the
workflow runs; only when it returns a non-empty list is the key
province ++ isp inserted into final_results, with the first two results. -/
def mainRun (pnet : String → PingTrace) (snet : String → StreamTrace)
    (sched₁ sched₂ : List String → List String)
    (collections : List ((String × String) × List String)) :
    List (String × List FinalEntry) :=
  match collections with
  | [] => []
  | ((province, isp), ip_list) :: rest =>
    match findMulticast province isp with
    | none => mainRun pnet snet sched₁ sched₂ rest
    | some multicast =>
      if ip_list.isEmpty then mainRun pnet snet sched₁ sched₂ rest
      else
        let speed_results :=
          complete_speed_test_workflow pnet snet sched₁ sched₂
            ip_list multicast
        if speed_results.isEmpty then mainRun pnet snet sched₁ sched₂ rest
        else
          (province ++ isp,
            (speed_results.take 2).map (toFinalEntry multicast)) ::
            mainRun pnet snet sched₁ sched₂ rest

/-- A ping oracle under which every host answers (return code 0). -/
def pnetUp : String → PingTrace := fun _ => { raised := false, returncode := 0 }

/-- A ping oracle under which every host is down (return code 1). -/
def pnetDown : String → PingTrace := fun _ => { raised := false, returncode := 1 }

/-- A ping oracle under which every ping subprocess raises. -/
def pnetRaise : String → PingTrace := fun _ => { raised := true, returncode := 0 }

/-- A stream oracle: every download runs 20 s with status 200 but delivers
zero bytes. -/
def snetZero : String → StreamTrace :=
  fun _ => { raised := false, statusCode := 200, totalBytes := 0, duration := 20 }

/-- A stream oracle: every download runs 20 s with status 200 and delivers
1000 bytes. -/
def snetGood : String → StreamTrace :=
  fun _ => { raised := false, statusCode := 200, totalBytes := 1000, duration := 20 }

/-- A stream oracle: every download gets HTTP status 404. -/
def snetHttpErr : String → StreamTrace :=
  fun _ => { raised := false, statusCode := 404, totalBytes := 0, duration := 20 }

/-- A stream oracle: every download runs 20 s with status 200 and delivers
exactly 5 bytes, so all successful outcomes carry the same score. -/
def snetEqual : String → StreamTrace :=
  fun _ => { raised := false, statusCode := 200, totalBytes := 5, duration := 20 }

/-- The ip_collections input for concrete runs: the 北京/移动 target
with a single candidate. -/
def collectionsBeijing : List ((String × String) × List String) :=
  [(("北京", "移动"), ["1.2.3.4:8001"])]

/-- The final entry main stores for the single candidate of
collectionsBeijing when every ping answers and the download delivers
1000 bytes in 20 s. -/
def finalEntryGood : FinalEntry :=
  { ip := "1.2.3.4:8001", multicast := "228.1.1.128:8001",
    total_bytes := 1000, avg_speed_kbps := ((1000 : Nat) : ℚ) / 1024 / 20,
    duration_sec := 20 }

/-- Membership in insertDesc: exactly the inserted element and the old
elements. -/
theorem mem_insertDesc {a x : SpeedResult} {l : List SpeedResult} :
    a ∈ insertDesc x l ↔ a = x ∨ a ∈ l := by
  induction l with
  | nil => simp [insertDesc]
  | cons y ys ih =>
    by_cases h : x.total_bytes < y.total_bytes
    · simp [insertDesc, h, ih]
      tauto
    · simp [insertDesc, h]

/-- Membership is preserved by the stable descending sort. -/
theorem mem_sortDesc {a : SpeedResult} {l : List SpeedResult} :
    a ∈ sortDesc l ↔ a ∈ l := by
  induction l with
  | nil => simp [sortDesc]
  | cons x xs ih => simp [sortDesc, mem_insertDesc, ih]

/-- insertDesc keeps the list pairwise non-increasing on total_bytes. -/
theorem pairwise_insertDesc {x : SpeedResult} {l : List SpeedResult}
    (h : l.Pairwise (fun a b => b.total_bytes ≤ a.total_bytes)) :
    (insertDesc x l).Pairwise (fun a b => b.total_bytes ≤ a.total_bytes) := by
  induction l with
  | nil => simp [insertDesc]
  | cons y ys ih =>
    rcases List.pairwise_cons.mp h with ⟨hy, hys⟩
    by_cases hlt : x.total_bytes < y.total_bytes
    · simp only [insertDesc, if_pos hlt]
      refine List.pairwise_cons.mpr ⟨?_, ih hys⟩
      intro b hb
      rcases mem_insertDesc.mp hb with rfl | hb
      · exact Nat.le_of_lt hlt
      · exact hy b hb
    · simp only [insertDesc, if_neg hlt]
      refine List.pairwise_cons.mpr ⟨?_, h⟩
      intro b hb
      rcases List.mem_cons.mp hb with rfl | hb
      · exact Nat.le_of_not_lt hlt
      · exact le_trans (hy b hb) (Nat.le_of_not_lt hlt)

/-- The output of sortDesc is pairwise non-increasing on total_bytes. -/
theorem pairwise_sortDesc (l : List SpeedResult) :
    (sortDesc l).Pairwise (fun a b => b.total_bytes ≤ a.total_bytes) := by
  induction l with
  | nil => simp [sortDesc]
  | cons x xs ih => exact pairwise_insertDesc ih

/-- Stability of one insertion step, seen through the elements of a fixed
key: inserting x does not disturb the relative order of equal-key
elements, because x only moves past elements of strictly larger key. -/
theorem filter_insertDesc (k : Nat) (x : SpeedResult)
    (l : List SpeedResult) :
    (insertDesc x l).filter (fun r => r.total_bytes == k) =
      (x :: l).filter (fun r => r.total_bytes == k) := by
  induction l with
  | nil => simp [insertDesc]
  | cons y ys ih =>
    by_cases hlt : x.total_bytes < y.total_bytes
    · simp only [insertDesc, if_pos hlt]
      by_cases hy : y.total_bytes = k
      · have hx : ¬ x.total_bytes = k := by omega
        rw [List.filter_cons, List.filter_cons, List.filter_cons, ih,
          List.filter_cons]
        simp [hy, hx]
      · rw [List.filter_cons, List.filter_cons, List.filter_cons, ih,
          List.filter_cons]
        simp [hy]
    · simp only [insertDesc, if_neg hlt]

/-- C1: the claim "successful outcome iff elapsed time > 0 and at least one
byte was received" is false at a concrete input: a probe whose download
runs 20 seconds with HTTP status 200 but receives zero bytes returns a
successful result, although no byte was received. -/
theorem C1_counterexample :
    ¬ ((test_stream_speed_one_minute snetZero "1.2.3.4:8001"
          "228.1.1.128:8001").isSome = true ↔
        (0 < (snetZero (test_url "1.2.3.4:8001" "228.1.1.128:8001")).duration ∧
          1 ≤ (snetZero (test_url "1.2.3.4:8001"
            "228.1.1.128:8001")).totalBytes)) := by
  decide

/-- C1 (amended): the throughput probe produces a successful outcome iff no
exception escaped to its handler, the HTTP status is below 400, and the
measured duration is at least 10 seconds; the number of bytes received
plays no role in success. -/
theorem C1_success_iff (snet : String → StreamTrace)
    (ip_port multicast_addr : String) :
    (test_stream_speed_one_minute snet ip_port multicast_addr).isSome = true ↔
      ((snet (test_url ip_port multicast_addr)).raised = false ∧
        (snet (test_url ip_port multicast_addr)).statusCode < 400 ∧
        10 ≤ (snet (test_url ip_port multicast_addr)).duration) := by
  by_cases h1 : (snet (test_url ip_port multicast_addr)).raised
  · simp [test_stream_speed_one_minute, h1]
  · by_cases h2 : 400 ≤ (snet (test_url ip_port multicast_addr)).statusCode
    · simp [test_stream_speed_one_minute, h1, h2]
    · by_cases h3 : (snet (test_url ip_port multicast_addr)).duration < 10
      · simp [test_stream_speed_one_minute, h1, h2, h3]
      · simp [test_stream_speed_one_minute, h1, h2, h3]
        exact ⟨by omega, le_of_not_lt h3⟩

/-- C5: a ping whose subprocess raises yields False, and a throughput probe
whose request raises or answers with an error status (>= 400) yields None;
in the model both probes are total functions, reflecting the catch-all
exception handlers that turn every failure into a value rather than a
propagated exception. -/
theorem C5_failures_become_values (pnet : String → PingTrace)
    (snet : String → StreamTrace) (ip mc : String) :
    ((pnet (hostPart ip)).raised = true → check_ip_ping pnet ip = false) ∧
    ((snet (test_url ip mc)).raised = true ∨
        400 ≤ (snet (test_url ip mc)).statusCode →
      test_stream_speed_one_minute snet ip mc = none) := by
  constructor
  · intro h
    simp [check_ip_ping, h]
  · intro h
    rcases h with h | h
    · simp [test_stream_speed_one_minute, h]
    · by_cases h1 : (snet (test_url ip mc)).raised
      · simp [test_stream_speed_one_minute, h1]
      · simp [test_stream_speed_one_minute, h1, h]

/-- Witness for C5 at concrete inputs: a raising ping and a 404 stream both
produce failure values. -/
theorem C5_failures_become_values_witness :
    check_ip_ping pnetRaise "1.2.3.4:8001" = false ∧
    test_stream_speed_one_minute snetHttpErr "1.2.3.4:8001"
      "228.1.1.128:8001" = none :=
  ⟨(C5_failures_become_values pnetRaise snetHttpErr "1.2.3.4:8001"
      "228.1.1.128:8001").1 rfl,
   (C5_failures_become_values pnetRaise snetHttpErr "1.2.3.4:8001"
      "228.1.1.128:8001").2 (Or.inr (by decide))⟩

/-- C10: check_ip_ping pings only ip.split(':')[0], so two candidates with
the same host part before the first colon yield the same liveness result,
whatever their ports. -/
theorem C10_port_independent (pnet : String → PingTrace) (a b : String)
    (h : hostPart a = hostPart b) :
    check_ip_ping pnet a = check_ip_ping pnet b := by
  unfold check_ip_ping
  rw [h]

/-- Witness for C10: two candidates sharing host 1.2.3.4 but with ports
8001 and 9999 get the same ping verdict. -/
theorem C10_port_independent_witness :
    hostPart "1.2.3.4:8001" = hostPart "1.2.3.4:9999" ∧
    check_ip_ping pnetUp "1.2.3.4:8001" = check_ip_ping pnetUp "1.2.3.4:9999" :=
  ⟨by decide, C10_port_independent pnetUp "1.2.3.4:8001" "1.2.3.4:9999" (by decide)⟩

/-- The workflow output is always pairwise non-increasing on total_bytes:
it is either empty (a short-circuit) or the result of the descending
sort. -/
theorem workflow_pairwise (pnet : String → PingTrace)
    (snet : String → StreamTrace)
    (sched₁ sched₂ : List String → List String)
    (ip_list : List String) (multicast_addr : String) :
    (complete_speed_test_workflow pnet snet sched₁ sched₂ ip_list
        multicast_addr).Pairwise
      (fun a b => b.total_bytes ≤ a.total_bytes) := by
  unfold complete_speed_test_workflow
  by_cases h : ip_list.isEmpty
  · simp [h]
  · by_cases h2 : (batch_ping_check pnet sched₁
        (ip_list.take MAX_IPS_PER_TARGET)).isEmpty
    · simp [h, h2]
    · simp only [h, h2, Bool.false_eq_true, if_true, if_false]
      exact pairwise_sortDesc _

/-- Every value stored in the output mapping is the image under
toFinalEntry of the first two entries of some workflow run. -/
theorem mainRun_mem_values (pnet : String → PingTrace)
    (snet : String → StreamTrace)
    (sched₁ sched₂ : List String → List String)
    (collections : List ((String × String) × List String))
    (k : String) (v : List FinalEntry)
    (h : (k, v) ∈ mainRun pnet snet sched₁ sched₂ collections) :
    ∃ ip_list mc,
      v = ((complete_speed_test_workflow pnet snet sched₁ sched₂ ip_list
        mc).take 2).map (toFinalEntry mc) := by
  induction collections with
  | nil => cases h
  | cons e rest ih =>
    obtain ⟨⟨province, isp⟩, l⟩ := e
    simp only [mainRun] at h
    cases hm : findMulticast province isp with
    | none =>
      rw [hm] at h
      exact ih h
    | some mc =>
      rw [hm] at h
      dsimp only at h
      by_cases he : l.isEmpty
      · rw [if_pos he] at h
        exact ih h
      · rw [if_neg he] at h
        by_cases hw : (complete_speed_test_workflow pnet snet sched₁ sched₂
            l mc).isEmpty
        · rw [if_pos hw] at h
          exact ih h
        · rw [if_neg hw] at h
          rcases List.mem_cons.mp h with heq | hmem
          · exact ⟨l, mc, congrArg Prod.snd heq⟩
          · exact ih hmem

/-- C2: the final ranked slice for a target — the first two entries of
the workflow output, as main takes them — has length at most 2 and is
sorted by non-increasing total_bytes; consequently every value of the
output mapping has length at most 2 and is sorted by non-increasing
total_bytes. -/
theorem C2_cap_and_sorted (pnet : String → PingTrace)
    (snet : String → StreamTrace)
    (sched₁ sched₂ : List String → List String)
    (ip_list : List String) (multicast_addr : String)
    (collections : List ((String × String) × List String)) :
    (((complete_speed_test_workflow pnet snet sched₁ sched₂ ip_list
        multicast_addr).take 2).length ≤ 2 ∧
      ((complete_speed_test_workflow pnet snet sched₁ sched₂ ip_list
        multicast_addr).take 2).Pairwise
        (fun a b => b.total_bytes ≤ a.total_bytes)) ∧
    ∀ k v, (k, v) ∈ mainRun pnet snet sched₁ sched₂ collections →
      v.length ≤ 2 ∧
        v.Pairwise (fun a b => b.total_bytes ≤ a.total_bytes) := by
  refine ⟨⟨List.length_take_le 2 _,
    List.Pairwise.sublist (List.take_sublist 2 _)
      (workflow_pairwise pnet snet sched₁ sched₂ ip_list multicast_addr)⟩,
    ?_⟩
  intro k v hkv
  rcases mainRun_mem_values pnet snet sched₁ sched₂ collections k v hkv
    with ⟨l, mc, rfl⟩
  constructor
  · rw [List.length_map]
    exact List.length_take_le 2 _
  · rw [List.pairwise_map]
    exact List.Pairwise.sublist (List.take_sublist 2 _)
      (workflow_pairwise pnet snet sched₁ sched₂ l mc)

/-- C3: when the ping stage keeps no candidate, the workflow returns the
empty list and the throughput stage receives no candidate to probe. -/
theorem C3_short_circuit (pnet : String → PingTrace)
    (snet : String → StreamTrace)
    (sched₁ sched₂ : List String → List String)
    (ip_list : List String) (multicast_addr : String)
    (h : batch_ping_check pnet sched₁ (ip_list.take MAX_IPS_PER_TARGET) = []) :
    complete_speed_test_workflow pnet snet sched₁ sched₂ ip_list
        multicast_addr = [] ∧
      speedStageIps pnet sched₁ sched₂ ip_list = [] := by
  constructor
  · unfold complete_speed_test_workflow
    split
    · rfl
    · simp [h]
  · unfold speedStageIps
    split
    · rfl
    · simp [h]

/-- Witness for C3: with every host down, the workflow of one candidate
returns empty and probes nothing at the throughput stage. -/
theorem C3_short_circuit_witness :
    complete_speed_test_workflow pnetDown snetGood id id ["1.2.3.4:8001"]
        "228.1.1.128:8001" = [] ∧
      speedStageIps pnetDown id id ["1.2.3.4:8001"] = [] :=
  C3_short_circuit pnetDown snetGood id id ["1.2.3.4:8001"]
    "228.1.1.128:8001" (by decide)

/-- C6: the claim that equal-score outcomes are ordered lexically by
candidate identifier is false at a concrete input: both candidates score
5 bytes, yet the ranked output keeps 9.9.9.9:80 (the collection order)
before the lexically smaller 1.1.1.1:80. -/
theorem C6_counterexample :
    ((complete_speed_test_workflow pnetUp snetEqual id id
        ["9.9.9.9:80", "1.1.1.1:80"] "228.1.1.128:8001").map
          SpeedResult.ip_port = ["9.9.9.9:80", "1.1.1.1:80"] ∧
      (complete_speed_test_workflow pnetUp snetEqual id id
        ["9.9.9.9:80", "1.1.1.1:80"] "228.1.1.128:8001").map
          SpeedResult.total_bytes = [5, 5]) ∧
    ("1.1.1.1:80" : String).data < ("9.9.9.9:80" : String).data := by
  refine ⟨⟨?_, ?_⟩, ?_⟩ <;> decide

/-- C6 (amended): the sort of the ranking stage is stable on total_bytes —
among outcomes of equal score it preserves the order in which the
scheduler collected them (nondeterministic completion order), with no
lexical tie-break on the candidate identifier. -/
theorem C6_stable_ties (l : List SpeedResult) (k : Nat) :
    (sortDesc l).filter (fun r => r.total_bytes == k) =
      l.filter (fun r => r.total_bytes == k) := by
  induction l with
  | nil => rfl
  | cons x xs ih =>
    show (insertDesc x (sortDesc xs)).filter _ = _
    rw [filter_insertDesc, List.filter_cons, List.filter_cons, ih]

/-- C7: every candidate the ping stage retains passed check_ip_ping, and
every outcome in the workflow result is the value of a successful
(non-None) throughput probe: failures are never appended at either
stage. -/
theorem C7_only_successes (pnet : String → PingTrace)
    (snet : String → StreamTrace)
    (sched₁ sched₂ : List String → List String)
    (ip_list : List String) (multicast_addr : String) :
    (∀ ip ∈ batch_ping_check pnet sched₁ (ip_list.take MAX_IPS_PER_TARGET),
      check_ip_ping pnet ip = true) ∧
    (∀ r ∈ complete_speed_test_workflow pnet snet sched₁ sched₂ ip_list
        multicast_addr,
      ∃ ip, test_stream_speed_one_minute snet ip multicast_addr = some r) := by
  constructor
  · intro ip hip
    exact (List.mem_filter.mp hip).2
  · intro r hr
    unfold complete_speed_test_workflow at hr
    by_cases h : ip_list.isEmpty
    · simp [h] at hr
    · by_cases h2 : (batch_ping_check pnet sched₁
          (ip_list.take MAX_IPS_PER_TARGET)).isEmpty
      · simp [h, h2] at hr
      · simp only [h, h2, Bool.false_eq_true, if_true, if_false] at hr
        rcases List.mem_filterMap.mp (mem_sortDesc.mp hr) with ⟨ip, _, hsome⟩
        exact ⟨ip, hsome⟩

/-- Witness for C7 at a concrete input: the single retained candidate
passed the ping, and the single ranked outcome is the value of a
successful probe. -/
theorem C7_only_successes_witness :
    check_ip_ping pnetUp "1.2.3.4:8001" = true ∧
    ∃ ip, test_stream_speed_one_minute snetGood ip "228.1.1.128:8001" =
      some { ip_port := "1.2.3.4:8001", total_bytes := 1000,
             avg_speed_kbps := ((1000 : Nat) : ℚ) / 1024 / 20,
             duration_sec := 20,
             test_url := test_url "1.2.3.4:8001" "228.1.1.128:8001" } :=
  ⟨(C7_only_successes pnetUp snetGood id id ["1.2.3.4:8001"]
      "228.1.1.128:8001").1 "1.2.3.4:8001" (by decide),
   (C7_only_successes pnetUp snetGood id id ["1.2.3.4:8001"]
      "228.1.1.128:8001").2 _ (by
        rw [show complete_speed_test_workflow pnetUp snetGood id id
            ["1.2.3.4:8001"] "228.1.1.128:8001" =
            [{ ip_port := "1.2.3.4:8001", total_bytes := 1000,
               avg_speed_kbps := ((1000 : Nat) : ℚ) / 1024 / 20,
               duration_sec := 20,
               test_url := test_url "1.2.3.4:8001" "228.1.1.128:8001" }]
          from rfl]
        exact List.mem_cons_self _ _)⟩

/-- C8: at most MAX_IPS_PER_TARGET candidates enter the ping stage, and
every candidate probed at the throughput stage belongs to the truncated
list and passed the ping stage. -/
theorem C8_truncation (pnet : String → PingTrace)
    (sched₁ sched₂ : List String → List String) (ip_list : List String)
    (h₁ : Sched sched₁) (h₂ : Sched sched₂) :
    (pingStageIps ip_list).length ≤ MAX_IPS_PER_TARGET ∧
    ∀ ip ∈ speedStageIps pnet sched₁ sched₂ ip_list,
      ip ∈ ip_list.take MAX_IPS_PER_TARGET ∧ check_ip_ping pnet ip = true := by
  constructor
  · unfold pingStageIps
    split
    · simp
    · exact List.length_take_le _ _
  · intro ip hip
    unfold speedStageIps at hip
    by_cases h : ip_list.isEmpty
    · simp [h] at hip
    · by_cases h2 : (batch_ping_check pnet sched₁
          (ip_list.take MAX_IPS_PER_TARGET)).isEmpty
      · simp [h, h2] at hip
      · simp only [h, h2, Bool.false_eq_true, if_true, if_false] at hip
        have h3 : ip ∈ batch_ping_check pnet sched₁
            (ip_list.take MAX_IPS_PER_TARGET) :=
          (h₂ _).mem_iff.mp hip
        have h4 := List.mem_filter.mp h3
        exact ⟨(h₁ _).mem_iff.mp h4.1, h4.2⟩

/-- Witness for C8: the identity schedule is a valid completion order, and
the bound holds on a concrete one-candidate run. -/
theorem C8_truncation_witness :
    (pingStageIps ["1.2.3.4:8001"]).length ≤ MAX_IPS_PER_TARGET ∧
    ∀ ip ∈ speedStageIps pnetUp id id ["1.2.3.4:8001"],
      ip ∈ (["1.2.3.4:8001"] : List String).take MAX_IPS_PER_TARGET ∧
        check_ip_ping pnetUp ip = true :=
  C8_truncation pnetUp id id ["1.2.3.4:8001"]
    (fun l => List.Perm.refl l) (fun l => List.Perm.refl l)

/-- C4: the claim that every processed target appears in the output
mapping is false at a concrete input: the 北京移动 target is processed
with a non-empty candidate set and a known multicast address, every ping
fails, and the resulting output mapping is empty — the target is
silently absent, with no explicit empty result or reason code. -/
theorem C4_counterexample :
    ((("北京", "移动"), ["1.2.3.4:8001"]) ∈ collectionsBeijing ∧
      findMulticast "北京" "移动" = some "228.1.1.128:8001") ∧
    mainRun pnetDown snetGood id id collectionsBeijing = [] := by
  refine ⟨⟨?_, ?_⟩, ?_⟩ <;> decide

/-- C4 (amended): the output mapping contains exactly the targets whose
multicast address is known, whose candidate list is non-empty, and whose
workflow returned at least one successful outcome; every other processed
target is omitted from the mapping (its failure is only logged), so
absence of the key — not an explicit empty result with a reason code —
is what encodes failure. -/
theorem C4_keys (pnet : String → PingTrace) (snet : String → StreamTrace)
    (sched₁ sched₂ : List String → List String)
    (collections : List ((String × String) × List String)) :
    (mainRun pnet snet sched₁ sched₂ collections).map Prod.fst =
      collections.filterMap (fun e =>
        match findMulticast e.1.1 e.1.2 with
        | none => none
        | some mc =>
          if e.2.isEmpty then none
          else if (complete_speed_test_workflow pnet snet sched₁ sched₂
              e.2 mc).isEmpty then none
          else some (e.1.1 ++ e.1.2)) := by
  induction collections with
  | nil => rfl
  | cons e rest ih =>
    obtain ⟨⟨province, isp⟩, ip_list⟩ := e
    cases hm : findMulticast province isp with
    | none => simp [mainRun, hm, ih, List.filterMap_cons]
    | some mc =>
      by_cases he : ip_list = []
      · subst he
        simp [mainRun, hm, ih, List.filterMap_cons]
      · by_cases hw : complete_speed_test_workflow pnet snet sched₁ sched₂
            ip_list mc = []
        · simp [mainRun, hm, he, hw, ih, List.filterMap_cons]
        · simp [mainRun, hm, he, hw, ih, List.filterMap_cons]

/-- Witness for C2 on a concrete run: the value the runner stores for
北京移动 has length at most 2 and is sorted by non-increasing
total_bytes. -/
theorem C2_cap_and_sorted_witness :
    ([finalEntryGood] : List FinalEntry).length ≤ 2 ∧
      ([finalEntryGood] : List FinalEntry).Pairwise
        (fun a b => b.total_bytes ≤ a.total_bytes) :=
  (C2_cap_and_sorted pnetUp snetGood id id ["1.2.3.4:8001"]
    "228.1.1.128:8001" collectionsBeijing).2 "北京移动" [finalEntryGood] (by
      rw [show mainRun pnetUp snetGood id id collectionsBeijing =
          [("北京移动", [finalEntryGood])] from rfl]
      exact List.mem_cons_self _ _)
